import Mathlib

/-!
Shallow embedding of the timoni delete command (`cmd/timoni/delete.go`,
function `runDeleteCmd`) and of the dry-run diff reporter
(`internal/dyff`, function `InstanceDryRunDiff`).

External collaborators (the cluster resource manager `sm`, the instance
storage `iStorage`, the diff engine `rm.Diff`, the detail renderer made of
`os.WriteFile` + `DiffYAML`) are modelled as oracles packaged in an
environment record.  Each run is modelled as the list of observable events
it emits (store calls and log lines), paired with its outcome (success,
returned error, or `os.Exit` code).

The Go code obtains the deletion order by sorting the instance objects
with `sort.Sort(sort.Reverse(ssa.SortableUnstructureds(objects)))`, where
the comparator is the external canonical (dependency) order.  Here the
input list is taken to be in canonical creation/apply order, so that line
is embedded as `List.reverse`.  Likewise `InstanceDryRunDiff` sorts its
desired objects in ascending canonical order; its input list is taken
as already canonically ordered.
-/

namespace Timoni

/-- An identified cluster resource: kind, namespace, name, plus labels and
annotation pairs used by the force-marker lookup.  Mirrors the identity
and metadata parts of `unstructured.Unstructured`. -/
structure Resource where
  kind : String
  ns : String
  name : String
  labels : List (String × String)
  annots : List (String × String)
deriving DecidableEq, Repr

/-- The ssa action kinds used by the code (`ssa.CreatedAction`,
`ssa.ConfiguredAction`, `ssa.UnchangedAction`, `ssa.DeletedAction`,
`ssa.SkippedAction`). -/
inductive Action
  | created
  | configured
  | unchanged
  | deleted
  | skipped
deriving DecidableEq, Repr

/-- A `ssa.ChangeSetEntry`: the action taken on a subject resource. -/
structure Change where
  action : Action
  subject : Resource
deriving DecidableEq, Repr

/-- Errors from collaborators are opaque messages. -/
abbrev Err := String

/-- `ssa.ChangeSet`: an append-only list of changes, insertion order =
processing order (`cs.Add` appends at the end). -/
abbrev ChangeSet := List Change

/-- Modelled from the spec: `runtime.SelectObjectsFromSet` (from
`internal/runtime`, whose source is not included) selects from a
ChangeSet the subjects of the entries carrying the given action
("the set of Deleted changes in the ChangeSet"). -/
def selectObjectsFromSet (cs : ChangeSet) (a : Action) : List Resource :=
  (cs.filter (fun c => decide (c.action = a))).map (fun c => c.subject)

/-- Observable events of a `runDeleteCmd` run, in emission order. -/
inductive Event
  /-- `log.Info(ColorizeJoin(object, DeletedAction, DryRunClient))`:
  the simulated Deleted report of dry-run mode. -/
  | dryRunDeletedLog (r : Resource)
  /-- `sm.Delete(ctx, object, deleteOpts)`: a mutating per-resource
  delete call to the cluster. -/
  | storeDelete (r : Resource)
  /-- `log.Error(err, "deletion failed")`. -/
  | deleteFailedLog (r : Resource)
  /-- `log.Info(ColorizeJoin(change))` after a successful delete. -/
  | changeLog (c : Change)
  /-- `iStorage.Delete(ctx, inst.Name, inst.Namespace)`: deletion of the
  instance record. -/
  | instanceRecordDelete
  /-- `sm.WaitForTermination(deletedObjects, waitOpts)`: the termination
  wait over the listed resources. -/
  | terminationWait (rs : List Resource)
deriving DecidableEq, Repr

/-- How the command run ends: normal return `nil`, a returned error
(cobra turns it into a non-zero exit), or a direct `os.Exit`. -/
inductive Outcome
  | success
  | exitCode (n : Nat)
  | failure (e : Err)
deriving DecidableEq, Repr

/-- Oracles for the collaborators of `runDeleteCmd`: the result of
`sm.Delete` per resource, of `iStorage.Delete`, and of
`sm.WaitForTermination` (`none` meaning success). -/
structure DeleteEnv where
  deleteResult : Resource → Except Err Change
  instanceDeleteResult : Option Err
  waitResult : Option Err

/-- Whether a collaborator call failed. -/
def isErr : Except Err Change → Bool
  | .error _ => true
  | .ok _ => false

def isStoreDelete : Event → Bool
  | .storeDelete _ => true
  | _ => false

def isRecordDelete : Event → Bool
  | .instanceRecordDelete => true
  | _ => false

def isWaitEvent : Event → Bool
  | .terminationWait _ => true
  | _ => false

def storeDeleteTarget : Event → Option Resource
  | .storeDelete r => some r
  | _ => none

/-- The sequence of resources on which mutating store delete calls were
issued, in call order. -/
def storeDeleteCalls (evs : List Event) : List Resource :=
  evs.filterMap storeDeleteTarget

/-- The per-resource deletion loop of `runDeleteCmd` (delete.go lines
109-119): for each object call `sm.Delete`; on error log it, set
`hasErrors` and continue; on success append the change to the ChangeSet
and log it.  Returns (events, ChangeSet, hasErrors). -/
def deleteLoop (env : DeleteEnv) : List Resource → List Event × ChangeSet × Bool
  | [] => ([], [], false)
  | r :: rest =>
    match env.deleteResult r, deleteLoop env rest with
    | .error _, res =>
      (Event.storeDelete r :: Event.deleteFailedLog r :: res.1, res.2.1, true)
    | .ok c, res =>
      (Event.storeDelete r :: Event.changeLog c :: res.1, c :: res.2.1, res.2.2)

/-- The tail of `runDeleteCmd` after an error-free loop (delete.go lines
125-142): delete the instance record (returning its error if it fails),
then, if the wait flag is on and at least one resource was actually
deleted, wait for termination, surfacing a wait error. -/
def finishRun (env : DeleteEnv) (w : Bool) (cs : ChangeSet) : List Event × Outcome :=
  match env.instanceDeleteResult with
  | some e => ([Event.instanceRecordDelete], Outcome.failure e)
  | none =>
    if w = true ∧ selectObjectsFromSet cs Action.deleted ≠ [] then
      match env.waitResult with
      | some e =>
        ([Event.instanceRecordDelete,
          Event.terminationWait (selectObjectsFromSet cs Action.deleted)],
         Outcome.failure e)
      | none =>
        ([Event.instanceRecordDelete,
          Event.terminationWait (selectObjectsFromSet cs Action.deleted)],
         Outcome.success)
    else ([Event.instanceRecordDelete], Outcome.success)

/-- `runDeleteCmd` (delete.go lines 97-142) from the point where the
instance object list is known, taken in canonical creation/apply order
(`objects`); line 97 reverses it.  Dry-run mode only logs a simulated
Deleted action per object and returns.  Real mode runs the deletion
loop; on any per-resource error it exits with status 1, otherwise it
runs `finishRun`. -/
def runDeleteCmd (env : DeleteEnv) (dryrun w : Bool) (objects : List Resource) :
    List Event × Outcome :=
  if dryrun = true then
    (objects.reverse.map Event.dryRunDeletedLog, Outcome.success)
  else
    if (deleteLoop env objects.reverse).2.2 = true then
      ((deleteLoop env objects.reverse).1, Outcome.exitCode 1)
    else
      ((deleteLoop env objects.reverse).1 ++
         (finishRun env w (deleteLoop env objects.reverse).2.1).1,
       (finishRun env w (deleteLoop env objects.reverse).2.1).2)

/-- The value `deletedObjects` computed by `runDeleteCmd` on the
error-free path: the subjects of Deleted entries of the run ChangeSet. -/
def runDeletedSet (env : DeleteEnv) (objects : List Resource) : List Resource :=
  selectObjectsFromSet (deleteLoop env objects.reverse).2.1 Action.deleted

/-- An error from the diff engine `rm.Diff`; the `immutable` flag is the
information recovered by `ssaerr.IsImmutableError`. -/
structure DiffError where
  immutable : Bool
  msg : String
deriving DecidableEq, Repr

/-- Oracles for the collaborators of `InstanceDryRunDiff`: the result of
`rm.Diff` per resource (a change plus the live and merged snapshots,
here opaque strings), and the combined result of the detail-rendering
sequence (`os.WriteFile` for the live snapshot, `os.WriteFile` for the
merged snapshot, then `DiffYAML`), of which the first error is
returned (`none` meaning the whole sequence succeeded). -/
structure DiffEnv where
  diffResult : Resource → Except DiffError (Change × String × String)
  renderResult : Resource → Option Err

/-- Modelled from the spec: the marker constants `apiv1.ForceAction` and
`apiv1.EnabledValue` (from `api/v1alpha1`, whose source is not
included): the "force" annotation/label key and its enabling value. -/
def forceActionKey : String := "action.timoni.sh/force"

/-- Modelled from the spec: the value that enables a marker. -/
def enabledValue : String := "enabled"

/-- Modelled from the spec: `ssautil.AnyInMetadata` checks whether the
resource carries the given key/value pair among its labels or its
annotation pairs. -/
def anyInMetadata (r : Resource) (key value : String) : Bool :=
  r.labels.any (fun p => decide (p.1 = key ∧ p.2 = value)) ||
  r.annots.any (fun p => decide (p.1 = key ∧ p.2 = value))

/-- Whether the resource is explicitly marked with the force marker. -/
def hasForceMarker (r : Resource) : Bool :=
  anyInMetadata r forceActionKey enabledValue

/-- Observable events of an `InstanceDryRunDiff` run, in emission
order. -/
inductive DEvent
  /-- `rm.Diff(ctx, r, diffOpts)`: the server-side dry-run merge call. -/
  | diffCall (r : Resource)
  /-- `log.Info(ColorizeJoin(r, CreatedAction, DryRunServer))`: the
  resource is classified Created. -/
  | reportCreated (r : Resource)
  /-- `log.Error(nil, ColorizeJoin(r, "immutable", DryRunServer))`: the
  error-level Immutable-Conflict report. -/
  | reportImmutable (r : Resource)
  /-- `log.Error(err, ColorizeUnstructured(r))`: error-level report of a
  non-immutable diff error. -/
  | reportDiffError (r : Resource)
  /-- `log.Info(ColorizeJoin(change, DryRunServer))`: report of the
  classified change of a successful diff. -/
  | reportChange (c : Change)
  /-- The detail diff of a Configured resource was written and rendered
  (`os.WriteFile` twice + `DiffYAML`, all successful). -/
  | renderDetail (r : Resource)
  /-- `log.Info(ColorizeJoin(r, DeletedAction, DryRunServer))`: a stale
  object reported as a prospective deletion. -/
  | reportStaleDeleted (r : Resource)
deriving DecidableEq, Repr

def diffCallTarget : DEvent → Option Resource
  | .diffCall r => some r
  | _ => none

/-- The sequence of resources on which `rm.Diff` was invoked, in call
order. -/
def diffCalls (evs : List DEvent) : List Resource :=
  evs.filterMap diffCallTarget

/-- Whether a reporter event is about the given resource. -/
def dEventMentions (r : Resource) : DEvent → Bool
  | .diffCall x => decide (x = r)
  | .reportCreated x => decide (x = r)
  | .reportImmutable x => decide (x = r)
  | .reportDiffError x => decide (x = r)
  | .reportChange c => decide (c.subject = r)
  | .renderDetail x => decide (x = r)
  | .reportStaleDeleted x => decide (x = r)

/-- Classification of a diff-call error (dyff.go lines 253-264): an
immutable error reclassifies to Created when the resource carries the
force marker and to the error-level immutable report otherwise; any
other error is reported at error level. -/
def classifyDiffError (r : Resource) (e : DiffError) : DEvent :=
  if e.immutable = true then
    (if hasForceMarker r = true then DEvent.reportCreated r else DEvent.reportImmutable r)
  else DEvent.reportDiffError r

/-- The desired-objects loop of `InstanceDryRunDiff` (dyff.go lines
246-287).  When the namespace does not exist the resource is reported
Created without a diff call.  A diff error is classified and the loop
continues.  On success the change is reported; when detailed-diff mode
is on and the change is Configured the detail is rendered, and a
rendering failure returns that error immediately, aborting the rest of
the loop.  Returns (events, aborting error if any). -/
def instanceDryRunDiffLoop (env : DiffEnv) (nsExists withDiff : Bool) :
    List Resource → List DEvent × Option Err
  | [] => ([], none)
  | r :: rest =>
    if nsExists = false then
      (DEvent.reportCreated r :: (instanceDryRunDiffLoop env nsExists withDiff rest).1,
       (instanceDryRunDiffLoop env nsExists withDiff rest).2)
    else
      match env.diffResult r with
      | .error e =>
        (DEvent.diffCall r :: classifyDiffError r e ::
           (instanceDryRunDiffLoop env nsExists withDiff rest).1,
         (instanceDryRunDiffLoop env nsExists withDiff rest).2)
      | .ok t =>
        if withDiff = true ∧ t.1.action = Action.configured then
          match env.renderResult r with
          | some e => ([DEvent.diffCall r, DEvent.reportChange t.1], some e)
          | none =>
            (DEvent.diffCall r :: DEvent.reportChange t.1 :: DEvent.renderDetail r ::
               (instanceDryRunDiffLoop env nsExists withDiff rest).1,
             (instanceDryRunDiffLoop env nsExists withDiff rest).2)
        else
          (DEvent.diffCall r :: DEvent.reportChange t.1 ::
             (instanceDryRunDiffLoop env nsExists withDiff rest).1,
           (instanceDryRunDiffLoop env nsExists withDiff rest).2)

/-- `InstanceDryRunDiff` (dyff.go lines 234-294): run the desired-objects
loop (the input list taken in canonical order, as produced by the sort
on line 244); if it aborted, return its error; otherwise report every
stale object as a prospective Deleted action and return success. -/
def InstanceDryRunDiff (env : DiffEnv) (objects staleObjects : List Resource)
    (nsExists withDiff : Bool) : List DEvent × Option Err :=
  match instanceDryRunDiffLoop env nsExists withDiff objects with
  | (evs, some e) => (evs, some e)
  | (evs, none) => (evs ++ staleObjects.map DEvent.reportStaleDeleted, none)

/-! Concrete fixtures used to exercise the theorems on closed inputs. -/

def rX : Resource := ⟨"ConfigMap", "default", "x", [], []⟩

def rY : Resource := ⟨"Secret", "default", "y", [], []⟩

def rA : Resource := ⟨"Deployment", "apps", "a", [], []⟩

def rB : Resource := ⟨"Service", "apps", "b", [], []⟩

def rS : Resource := ⟨"ConfigMap", "apps", "stale", [], []⟩

def r5 : Resource := ⟨"PersistentVolumeClaim", "apps", "data", [], []⟩

/-- A store in which deleting `rX` fails and every other delete
succeeds. -/
def env3 : DeleteEnv :=
  ⟨fun r => if r = rX then Except.error "boom" else Except.ok ⟨Action.deleted, r⟩,
   none, none⟩

/-- A store in which everything succeeds. -/
def env4 : DeleteEnv := ⟨fun r => Except.ok ⟨Action.deleted, r⟩, none, none⟩

/-- A store in which every resource delete succeeds but deleting the
instance record fails. -/
def env6c : DeleteEnv :=
  ⟨fun r => Except.ok ⟨Action.deleted, r⟩, some "instance record delete failed", none⟩

/-- A store in which everything succeeds. -/
def env6w : DeleteEnv := ⟨fun r => Except.ok ⟨Action.deleted, r⟩, none, none⟩

/-- A store in which every resource delete succeeds but deleting the
instance record fails. -/
def env9 : DeleteEnv :=
  ⟨fun r => Except.ok ⟨Action.deleted, r⟩, some "record delete refused", none⟩

/-- A store in which every resource delete succeeds but deleting the
instance record fails. -/
def env10c : DeleteEnv :=
  ⟨fun r => Except.ok ⟨Action.deleted, r⟩, some "instance record gone wrong", none⟩

/-- An immutable-field diff error. -/
def dErr5 : DiffError := ⟨true, "field is immutable"⟩

/-- A diff engine that reports an immutable-field conflict on every
resource. -/
def env5 : DiffEnv := ⟨fun _ => Except.error dErr5, fun _ => none⟩

/-- A diff engine for which `rA` is Configured but rendering the detail
diff of `rA` fails, while every other resource is Unchanged. -/
def env8c : DiffEnv :=
  ⟨fun r =>
     if r = rA then Except.ok (⟨Action.configured, rA⟩, "live", "merged")
     else Except.ok (⟨Action.unchanged, r⟩, "live", "merged"),
   fun r => if r = rA then some "failed to write live.yaml" else none⟩

/-- A generic (non-immutable) diff error. -/
def dErr8 : DiffError := ⟨false, "server unavailable"⟩

/-- A diff engine that fails with a generic error on every resource. -/
def env8w : DiffEnv := ⟨fun _ => Except.error dErr8, fun _ => none⟩

/-! Helper lemmas about the deletion loop and the run tail. -/

theorem deleteLoop_calls (env : DeleteEnv) (l : List Resource) :
    storeDeleteCalls (deleteLoop env l).1 = l := by
  induction l with
  | nil => rfl
  | cons r rest ih =>
    cases h : env.deleteResult r with
    | error e =>
      simp only [deleteLoop, h, storeDeleteCalls, List.filterMap_cons, storeDeleteTarget]
      exact congrArg (r :: ·) ih
    | ok c =>
      simp only [deleteLoop, h, storeDeleteCalls, List.filterMap_cons, storeDeleteTarget]
      exact congrArg (r :: ·) ih

theorem deleteLoop_flag (env : DeleteEnv) (l : List Resource) :
    (deleteLoop env l).2.2 = l.any (fun r => isErr (env.deleteResult r)) := by
  induction l with
  | nil => rfl
  | cons r rest ih =>
    cases h : env.deleteResult r with
    | error e => simp [deleteLoop, h, isErr]
    | ok c => simp [deleteLoop, h, isErr, ih]

theorem deleteLoop_record_count (env : DeleteEnv) (l : List Resource) :
    ((deleteLoop env l).1).countP isRecordDelete = 0 := by
  induction l with
  | nil => rfl
  | cons r rest ih =>
    cases h : env.deleteResult r with
    | error e => simp [deleteLoop, h, List.countP_cons, isRecordDelete, ih]
    | ok c => simp [deleteLoop, h, List.countP_cons, isRecordDelete, ih]

theorem deleteLoop_wait_count (env : DeleteEnv) (l : List Resource) :
    ((deleteLoop env l).1).countP isWaitEvent = 0 := by
  induction l with
  | nil => rfl
  | cons r rest ih =>
    cases h : env.deleteResult r with
    | error e => simp [deleteLoop, h, List.countP_cons, isWaitEvent, ih]
    | ok c => simp [deleteLoop, h, List.countP_cons, isWaitEvent, ih]

theorem finishRun_calls (env : DeleteEnv) (w : Bool) (cs : ChangeSet) :
    storeDeleteCalls (finishRun env w cs).1 = [] := by
  unfold finishRun
  cases env.instanceDeleteResult with
  | some e => rfl
  | none =>
    by_cases hc : w = true ∧ selectObjectsFromSet cs Action.deleted ≠ []
    · rw [if_pos hc]
      cases env.waitResult with
      | some e => rfl
      | none => rfl
    · rw [if_neg hc]
      rfl

theorem finishRun_shape (env : DeleteEnv) (w : Bool) (cs : ChangeSet) :
    ∃ tail, (finishRun env w cs).1 = Event.instanceRecordDelete :: tail ∧
      tail.countP isRecordDelete = 0 ∧ storeDeleteCalls tail = [] := by
  unfold finishRun
  cases env.instanceDeleteResult with
  | some e => exact ⟨[], rfl, rfl, rfl⟩
  | none =>
    by_cases hc : w = true ∧ selectObjectsFromSet cs Action.deleted ≠ []
    · rw [if_pos hc]
      cases env.waitResult with
      | some e =>
        exact ⟨[Event.terminationWait (selectObjectsFromSet cs Action.deleted)], rfl, rfl, rfl⟩
      | none =>
        exact ⟨[Event.terminationWait (selectObjectsFromSet cs Action.deleted)], rfl, rfl, rfl⟩
    · rw [if_neg hc]
      exact ⟨[], rfl, rfl, rfl⟩

theorem finishRun_record_fail (env : DeleteEnv) (w : Bool) (cs : ChangeSet) (e : Err)
    (h : env.instanceDeleteResult = some e) :
    finishRun env w cs = ([Event.instanceRecordDelete], Outcome.failure e) := by
  unfold finishRun
  rw [h]

theorem finishRun_wait_pos (env : DeleteEnv) (w : Bool) (cs : ChangeSet)
    (h : env.instanceDeleteResult = none)
    (hc : w = true ∧ selectObjectsFromSet cs Action.deleted ≠ []) :
    (finishRun env w cs).1.countP isWaitEvent = 1 := by
  unfold finishRun
  rw [h]
  rw [if_pos hc]
  cases env.waitResult with
  | some e => rfl
  | none => rfl

theorem finishRun_no_wait (env : DeleteEnv) (w : Bool) (cs : ChangeSet)
    (h : env.instanceDeleteResult = none)
    (hc : ¬(w = true ∧ selectObjectsFromSet cs Action.deleted ≠ [])) :
    finishRun env w cs = ([Event.instanceRecordDelete], Outcome.success) := by
  unfold finishRun
  rw [h]
  rw [if_neg hc]

theorem runDeleteCmd_hasErrors (env : DeleteEnv) (w : Bool) (rs : List Resource)
    (h : ∃ r ∈ rs, isErr (env.deleteResult r) = true) :
    runDeleteCmd env false w rs = ((deleteLoop env rs.reverse).1, Outcome.exitCode 1) := by
  have hflag : (deleteLoop env rs.reverse).2.2 = true := by
    rw [deleteLoop_flag, List.any_eq_true]
    obtain ⟨r, hr, he⟩ := h
    exact ⟨r, List.mem_reverse.mpr hr, he⟩
  unfold runDeleteCmd
  rw [hflag]
  simp

theorem runDeleteCmd_noErrors (env : DeleteEnv) (w : Bool) (rs : List Resource)
    (h : ∀ r ∈ rs, isErr (env.deleteResult r) = false) :
    runDeleteCmd env false w rs =
      ((deleteLoop env rs.reverse).1 ++
         (finishRun env w (deleteLoop env rs.reverse).2.1).1,
       (finishRun env w (deleteLoop env rs.reverse).2.1).2) := by
  have hflag : (deleteLoop env rs.reverse).2.2 = false := by
    rw [deleteLoop_flag, List.any_eq_false]
    intro r hr
    have hf := h r (List.mem_reverse.mp hr)
    simp [hf]
  unfold runDeleteCmd
  rw [hflag]
  simp

theorem dryRunLog_counts (l : List Resource) :
    storeDeleteCalls (l.map Event.dryRunDeletedLog) = [] ∧
    (l.map Event.dryRunDeletedLog).countP isRecordDelete = 0 ∧
    (l.map Event.dryRunDeletedLog).countP isWaitEvent = 0 := by
  induction l with
  | nil => exact ⟨rfl, rfl, rfl⟩
  | cons r rest ih =>
    refine ⟨?_, ?_, ?_⟩
    · simp only [List.map_cons, storeDeleteCalls, List.filterMap_cons, storeDeleteTarget]
      exact ih.1
    · simp [List.countP_cons, isRecordDelete, ih.2.1]
    · simp [List.countP_cons, isWaitEvent, ih.2.2]

/-- Claim C1: for an instance whose resource list is in canonical
creation/apply order, a (real-mode) deletion run issues the
per-resource store delete calls in exactly the reversed order. -/
theorem delete_reverse_order (env : DeleteEnv) (w : Bool) (rs : List Resource) :
    storeDeleteCalls (runDeleteCmd env false w rs).1 = rs.reverse := by
  by_cases hflag : (deleteLoop env rs.reverse).2.2 = true
  · unfold runDeleteCmd
    rw [hflag]
    simpa using deleteLoop_calls env rs.reverse
  · rw [Bool.not_eq_true] at hflag
    unfold runDeleteCmd
    rw [hflag]
    simp only [Bool.false_eq_true, if_false, storeDeleteCalls, List.filterMap_append]
    rw [show List.filterMap storeDeleteTarget (deleteLoop env rs.reverse).1 = rs.reverse
          from deleteLoop_calls env rs.reverse,
        show List.filterMap storeDeleteTarget
            (finishRun env w (deleteLoop env rs.reverse).2.1).1 = []
          from finishRun_calls env w (deleteLoop env rs.reverse).2.1]
    simp

/-- Claim C2: with the dry-run flag set, the delete command reports a
simulated Deleted action for each resource in deletion order and
returns success; it issues no store delete call, does not delete the
instance record, and never enters the termination wait. -/
theorem delete_dry_run_pure (env : DeleteEnv) (w : Bool) (rs : List Resource) :
    runDeleteCmd env true w rs =
      (rs.reverse.map Event.dryRunDeletedLog, Outcome.success) ∧
    storeDeleteCalls (runDeleteCmd env true w rs).1 = [] ∧
    (runDeleteCmd env true w rs).1.countP isRecordDelete = 0 ∧
    (runDeleteCmd env true w rs).1.countP isWaitEvent = 0 :=
  ⟨rfl, (dryRunLog_counts rs.reverse).1, (dryRunLog_counts rs.reverse).2.1,
   (dryRunLog_counts rs.reverse).2.2⟩

/-- Claim C3: in a real-mode run in which at least one per-resource
delete fails, every resource still has its delete attempted (the calls
are exactly the reversed list), the instance record is not deleted, the
termination wait is not entered, and the process exits with status 1. -/
theorem delete_partial_failure_isolation (env : DeleteEnv) (w : Bool) (rs : List Resource)
    (h : ∃ r ∈ rs, isErr (env.deleteResult r) = true) :
    storeDeleteCalls (runDeleteCmd env false w rs).1 = rs.reverse ∧
    (runDeleteCmd env false w rs).1.countP isRecordDelete = 0 ∧
    (runDeleteCmd env false w rs).1.countP isWaitEvent = 0 ∧
    (runDeleteCmd env false w rs).2 = Outcome.exitCode 1 := by
  rw [runDeleteCmd_hasErrors env w rs h]
  exact ⟨deleteLoop_calls env rs.reverse, deleteLoop_record_count env rs.reverse,
    deleteLoop_wait_count env rs.reverse, rfl⟩

/-- Witness for C3: with a store that fails on `rX`, the run over
`[rY, rX]` attempts both deletes, keeps the instance record, skips the
wait, and exits 1. -/
theorem delete_partial_failure_isolation_witness :
    (∃ r ∈ [rY, rX], isErr (env3.deleteResult r) = true) ∧
    (storeDeleteCalls (runDeleteCmd env3 false true [rY, rX]).1 = [rY, rX].reverse ∧
     (runDeleteCmd env3 false true [rY, rX]).1.countP isRecordDelete = 0 ∧
     (runDeleteCmd env3 false true [rY, rX]).1.countP isWaitEvent = 0 ∧
     (runDeleteCmd env3 false true [rY, rX]).2 = Outcome.exitCode 1) :=
  ⟨⟨rX, by decide, by decide⟩,
   delete_partial_failure_isolation env3 true [rY, rX] ⟨rX, by decide, by decide⟩⟩

/-- Claim C4: in a real-mode run in which every per-resource delete
succeeds, the instance record deletion happens exactly once, strictly
after the last store delete call and strictly before any termination
wait (the trace splits around a unique record-deletion event with no
store delete after it and no wait before it). -/
theorem delete_record_once_between (env : DeleteEnv) (w : Bool) (rs : List Resource)
    (h : ∀ r ∈ rs, isErr (env.deleteResult r) = false) :
    ∃ pre post,
      (runDeleteCmd env false w rs).1 = pre ++ Event.instanceRecordDelete :: post ∧
      pre.countP isRecordDelete = 0 ∧ post.countP isRecordDelete = 0 ∧
      storeDeleteCalls post = [] ∧ pre.countP isWaitEvent = 0 := by
  rw [runDeleteCmd_noErrors env w rs h]
  obtain ⟨tail, htail, hrec, hcalls⟩ :=
    finishRun_shape env w (deleteLoop env rs.reverse).2.1
  refine ⟨(deleteLoop env rs.reverse).1, tail, ?_,
    deleteLoop_record_count env rs.reverse, hrec, hcalls,
    deleteLoop_wait_count env rs.reverse⟩
  show (deleteLoop env rs.reverse).1 ++
      (finishRun env w (deleteLoop env rs.reverse).2.1).1 = _
  rw [htail]

/-- Witness for C4: the all-success run over `[rX, rY]`. -/
theorem delete_record_once_between_witness :
    (∀ r ∈ [rX, rY], isErr (env4.deleteResult r) = false) ∧
    (∃ pre post,
      (runDeleteCmd env4 false true [rX, rY]).1 =
        pre ++ Event.instanceRecordDelete :: post ∧
      pre.countP isRecordDelete = 0 ∧ post.countP isRecordDelete = 0 ∧
      storeDeleteCalls post = [] ∧ pre.countP isWaitEvent = 0) :=
  ⟨by decide, delete_record_once_between env4 true [rX, rY] (by decide)⟩

/-- Claim C9: when every per-resource delete succeeds but deleting the
instance record fails, the command returns that error and the
termination wait is never entered. -/
theorem delete_record_failure_no_wait (env : DeleteEnv) (w : Bool) (rs : List Resource)
    (e : Err) (h1 : ∀ r ∈ rs, isErr (env.deleteResult r) = false)
    (h2 : env.instanceDeleteResult = some e) :
    (runDeleteCmd env false w rs).2 = Outcome.failure e ∧
    (runDeleteCmd env false w rs).1.countP isWaitEvent = 0 := by
  rw [runDeleteCmd_noErrors env w rs h1,
    finishRun_record_fail env w (deleteLoop env rs.reverse).2.1 e h2]
  refine ⟨rfl, ?_⟩
  show ((deleteLoop env rs.reverse).1 ++ [Event.instanceRecordDelete]).countP isWaitEvent = 0
  rw [List.countP_append, deleteLoop_wait_count]
  rfl

/-- Witness for C9: deletes succeed on `[rX]`, the record deletion is
refused, the run fails with that error and never waits. -/
theorem delete_record_failure_no_wait_witness :
    (∀ r ∈ [rX], isErr (env9.deleteResult r) = false) ∧
    env9.instanceDeleteResult = some "record delete refused" ∧
    ((runDeleteCmd env9 false true [rX]).2 = Outcome.failure "record delete refused" ∧
     (runDeleteCmd env9 false true [rX]).1.countP isWaitEvent = 0) :=
  ⟨by decide, rfl,
   delete_record_failure_no_wait env9 true [rX] "record delete refused" (by decide) rfl⟩

/-- Counterexample to C6 as stated: a real-mode run with no per-resource
errors, waiting enabled, and a non-empty set of Deleted changes, in
which the termination wait is nevertheless not entered and the command
does not return success, because the instance-record deletion fails. -/
theorem delete_wait_iff_counterexample :
    (∀ r ∈ [rX], isErr (env6c.deleteResult r) = false) ∧
    runDeletedSet env6c [rX] ≠ [] ∧
    (runDeleteCmd env6c false true [rX]).1.countP isWaitEvent = 0 ∧
    (runDeleteCmd env6c false true [rX]).2 ≠ Outcome.success := by
  decide

/-- Claim C6 (amended): in a real-mode run with no per-resource errors
in which the instance-record deletion also succeeds, the termination
wait is entered if and only if waiting is enabled and the set of
Deleted changes in the ChangeSet is non-empty; otherwise the command
returns success without waiting. -/
theorem delete_wait_iff_deleted_nonempty (env : DeleteEnv) (w : Bool) (rs : List Resource)
    (h1 : ∀ r ∈ rs, isErr (env.deleteResult r) = false)
    (h2 : env.instanceDeleteResult = none) :
    (0 < (runDeleteCmd env false w rs).1.countP isWaitEvent ↔
       (w = true ∧ runDeletedSet env rs ≠ [])) ∧
    (¬(w = true ∧ runDeletedSet env rs ≠ []) →
       (runDeleteCmd env false w rs).2 = Outcome.success) := by
  have hev : (runDeleteCmd env false w rs).1.countP isWaitEvent =
      (finishRun env w (deleteLoop env rs.reverse).2.1).1.countP isWaitEvent := by
    rw [runDeleteCmd_noErrors env w rs h1]
    show ((deleteLoop env rs.reverse).1 ++
        (finishRun env w (deleteLoop env rs.reverse).2.1).1).countP isWaitEvent = _
    rw [List.countP_append, deleteLoop_wait_count]
    simp
  have hout : (runDeleteCmd env false w rs).2 =
      (finishRun env w (deleteLoop env rs.reverse).2.1).2 := by
    rw [runDeleteCmd_noErrors env w rs h1]
  by_cases hc : w = true ∧ runDeletedSet env rs ≠ []
  · have hc2 : w = true ∧
        selectObjectsFromSet (deleteLoop env rs.reverse).2.1 Action.deleted ≠ [] := hc
    constructor
    · rw [hev, finishRun_wait_pos env w (deleteLoop env rs.reverse).2.1 h2 hc2]
      simp [hc]
    · intro hn
      exact absurd hc hn
  · have hc2 : ¬(w = true ∧
        selectObjectsFromSet (deleteLoop env rs.reverse).2.1 Action.deleted ≠ []) := hc
    constructor
    · rw [hev, finishRun_no_wait env w (deleteLoop env rs.reverse).2.1 h2 hc2]
      simp [hc, List.countP_cons, isWaitEvent]
    · intro _
      rw [hout, finishRun_no_wait env w (deleteLoop env rs.reverse).2.1 h2 hc2]

/-- Witness for amended C6: an all-success run over `[rX]` with waiting
enabled does enter the termination wait. -/
theorem delete_wait_iff_deleted_nonempty_witness :
    (∀ r ∈ [rX], isErr (env6w.deleteResult r) = false) ∧
    env6w.instanceDeleteResult = none ∧
    ((0 < (runDeleteCmd env6w false true [rX]).1.countP isWaitEvent ↔
        (true = true ∧ runDeletedSet env6w [rX] ≠ [])) ∧
     (¬(true = true ∧ runDeletedSet env6w [rX] ≠ []) →
        (runDeleteCmd env6w false true [rX]).2 = Outcome.success)) :=
  ⟨by decide, rfl, delete_wait_iff_deleted_nonempty env6w true [rX] (by decide) rfl⟩

/-- Counterexample to C10 as stated: with an empty resource list but a
failing instance-record deletion, the run does not return success. -/
theorem delete_empty_instance_counterexample :
    (runDeleteCmd env10c false true []).2 = Outcome.failure "instance record gone wrong" ∧
    (runDeleteCmd env10c false true []).2 ≠ Outcome.success := by
  decide

/-- Claim C10 (amended): on an empty resource list, a real-mode run
performs no per-resource delete calls, issues the instance-record
deletion exactly once, skips the termination wait regardless of the
wait flag, and returns success when the instance-record deletion
succeeds (otherwise it returns that error). -/
theorem delete_empty_instance (env : DeleteEnv) (w : Bool) :
    (runDeleteCmd env false w []).1 = [Event.instanceRecordDelete] ∧
    storeDeleteCalls (runDeleteCmd env false w []).1 = [] ∧
    (runDeleteCmd env false w []).1.countP isWaitEvent = 0 ∧
    (runDeleteCmd env false w []).2 =
      env.instanceDeleteResult.elim Outcome.success Outcome.failure := by
  have hrun : runDeleteCmd env false w [] =
      ((finishRun env w []).1, (finishRun env w []).2) := by
    unfold runDeleteCmd
    simp [deleteLoop]
  cases h : env.instanceDeleteResult with
  | some e =>
    rw [hrun, finishRun_record_fail env w [] e h]
    exact ⟨rfl, rfl, rfl, rfl⟩
  | none =>
    have hc : ¬(w = true ∧ selectObjectsFromSet [] Action.deleted ≠ []) := by
      simp [selectObjectsFromSet]
    rw [hrun, finishRun_no_wait env w [] h hc]
    exact ⟨rfl, rfl, rfl, rfl⟩

/-! Helper lemmas about the dry-run diff reporter. -/

theorem diffLoop_ns_missing (env : DiffEnv) (wd : Bool) (l : List Resource) :
    instanceDryRunDiffLoop env false wd l = (l.map DEvent.reportCreated, none) := by
  induction l with
  | nil => rfl
  | cons r rest ih => simp [instanceDryRunDiffLoop, ih]

theorem diffCalls_reportCreated (l : List Resource) :
    diffCalls (l.map DEvent.reportCreated) = [] := by
  induction l with
  | nil => rfl
  | cons r rest ih =>
    simp only [List.map_cons, diffCalls, List.filterMap_cons, diffCallTarget]
    exact ih

theorem diffCalls_staleDeleted (l : List Resource) :
    diffCalls (l.map DEvent.reportStaleDeleted) = [] := by
  induction l with
  | nil => rfl
  | cons r rest ih =>
    simp only [List.map_cons, diffCalls, List.filterMap_cons, diffCallTarget]
    exact ih

/-- One step of the desired-objects loop on a diff-call error: the diff
call and the classified report are emitted and the loop continues on
the rest, with the aborting-error component unchanged. -/
theorem diffLoop_error_step (env : DiffEnv) (wd : Bool) (r : Resource)
    (rest : List Resource) (e : DiffError) (h : env.diffResult r = Except.error e) :
    instanceDryRunDiffLoop env true wd (r :: rest) =
      (DEvent.diffCall r :: classifyDiffError r e ::
         (instanceDryRunDiffLoop env true wd rest).1,
       (instanceDryRunDiffLoop env true wd rest).2) := by
  simp [instanceDryRunDiffLoop, h]

/-- Claim C7: when the target namespace does not exist, every desired
resource is classified Created without a diff call (the
namespace-existence fact being a single per-run input), and all stale
objects are still reported. -/
theorem dry_run_ns_missing_created (env : DiffEnv) (objects stale : List Resource)
    (wd : Bool) :
    InstanceDryRunDiff env objects stale false wd =
      (objects.map DEvent.reportCreated ++ stale.map DEvent.reportStaleDeleted, none) ∧
    diffCalls (InstanceDryRunDiff env objects stale false wd).1 = [] := by
  have h := diffLoop_ns_missing env wd objects
  have h1 : InstanceDryRunDiff env objects stale false wd =
      (objects.map DEvent.reportCreated ++ stale.map DEvent.reportStaleDeleted, none) := by
    unfold InstanceDryRunDiff
    rw [h]
  refine ⟨h1, ?_⟩
  rw [h1]
  show diffCalls (objects.map DEvent.reportCreated ++ stale.map DEvent.reportStaleDeleted) = []
  rw [show diffCalls (objects.map DEvent.reportCreated ++
        stale.map DEvent.reportStaleDeleted) =
      diffCalls (objects.map DEvent.reportCreated) ++
        diffCalls (stale.map DEvent.reportStaleDeleted)
    from List.filterMap_append _ _ _,
    diffCalls_reportCreated, diffCalls_staleDeleted]
  rfl

/-- Claim C5: a resource whose server-side dry-run merge fails with an
immutable-field error is reported as Created when it carries the force
marker and as the error-level immutable conflict otherwise, and in both
cases processing continues with the remaining resources. -/
theorem dry_run_immutable_classification (env : DiffEnv) (wd : Bool) (r : Resource)
    (rest stale : List Resource) (e : DiffError)
    (h1 : env.diffResult r = Except.error e) (h2 : e.immutable = true) :
    InstanceDryRunDiff env (r :: rest) stale true wd =
      (DEvent.diffCall r ::
         (if hasForceMarker r = true then DEvent.reportCreated r
          else DEvent.reportImmutable r) ::
         (InstanceDryRunDiff env rest stale true wd).1,
       (InstanceDryRunDiff env rest stale true wd).2) := by
  have hcls : classifyDiffError r e =
      (if hasForceMarker r = true then DEvent.reportCreated r
       else DEvent.reportImmutable r) := by
    unfold classifyDiffError
    rw [if_pos h2]
  have hstep := diffLoop_error_step env wd r rest e h1
  unfold InstanceDryRunDiff
  rw [hstep, hcls]
  cases hres : instanceDryRunDiffLoop env true wd rest with
  | mk evs res =>
    cases res with
    | some e2 => simp
    | none => simp

/-- Witness for C5: an unmarked resource hit by an immutable-field
error is reported as the error-level immutable conflict. -/
theorem dry_run_immutable_classification_witness :
    env5.diffResult r5 = Except.error dErr5 ∧ dErr5.immutable = true ∧
    InstanceDryRunDiff env5 [r5] [] true false =
      (DEvent.diffCall r5 ::
         (if hasForceMarker r5 = true then DEvent.reportCreated r5
          else DEvent.reportImmutable r5) ::
         (InstanceDryRunDiff env5 [] [] true false).1,
       (InstanceDryRunDiff env5 [] [] true false).2) :=
  ⟨rfl, rfl, dry_run_immutable_classification env5 false r5 [] [] dErr5 rfl rfl⟩

/-- Counterexample to C8 as stated: in detailed-diff mode, a rendering
failure on a Configured resource aborts the run, so the later desired
resource `rB` and the stale resource `rS` are never reported. -/
theorem dry_run_render_abort_counterexample :
    InstanceDryRunDiff env8c [rA, rB] [rS] true true =
      ([DEvent.diffCall rA, DEvent.reportChange ⟨Action.configured, rA⟩],
       some "failed to write live.yaml") ∧
    (InstanceDryRunDiff env8c [rA, rB] [rS] true true).1.countP (dEventMentions rB) = 0 ∧
    (InstanceDryRunDiff env8c [rA, rB] [rS] true true).1.countP (dEventMentions rS) = 0 := by
  decide

/-- Claim C8 (amended): any error returned by the per-resource diff
call is logged and processing continues with the remaining desired and
stale resources. -/
theorem dry_run_diff_error_continues (env : DiffEnv) (wd : Bool) (r : Resource)
    (rest stale : List Resource) (e : DiffError)
    (h : env.diffResult r = Except.error e) :
    InstanceDryRunDiff env (r :: rest) stale true wd =
      (DEvent.diffCall r :: classifyDiffError r e ::
         (InstanceDryRunDiff env rest stale true wd).1,
       (InstanceDryRunDiff env rest stale true wd).2) := by
  have hstep := diffLoop_error_step env wd r rest e h
  unfold InstanceDryRunDiff
  rw [hstep]
  cases hres : instanceDryRunDiffLoop env true wd rest with
  | mk evs res =>
    cases res with
    | some e2 => simp
    | none => simp

/-- Witness for amended C8: a generic diff error on `rA` still lets
`rB` and the stale object be processed. -/
theorem dry_run_diff_error_continues_witness :
    env8w.diffResult rA = Except.error dErr8 ∧
    InstanceDryRunDiff env8w [rA, rB] [rS] true true =
      (DEvent.diffCall rA :: classifyDiffError rA dErr8 ::
         (InstanceDryRunDiff env8w [rB] [rS] true true).1,
       (InstanceDryRunDiff env8w [rB] [rS] true true).2) :=
  ⟨rfl, dry_run_diff_error_continues env8w true rA [rB] [rS] dErr8 rfl⟩

end Timoni
